import Mathlib

/-!
Verification of the gopenapi generation core (spec normalizer, identifier
normalizer, type resolver, path translator, loader dispatch, and the output
classifier / emitter) against its natural-language specification.

The Go source is shallowly embedded: Go strings are `String` / `List Char`
(the inputs exercised by the generator are ASCII, and the ASCII fragments of
`strings.ToUpper`, `strings.ToLower`, `strings.Title` are embedded
accordingly), Go maps are association lists paired with their iteration
order, fallible deserialization is reduced to the dispatch decision it makes,
and the filesystem touched by the emitter is a path-to-content map.
-/

/-! ## ASCII character helpers shared by the embedded `strings` functions -/

/-- Embedding of the ASCII branch of Go `strings.isSeparator` (the predicate
`strings.Title` uses to find word starts): ASCII digits, lower-case letters,
upper-case letters and `'_'` are not separators; every other ASCII rune is. -/
def goIsSeparator (c : Char) : Bool :=
  !(c.isDigit || c.isLower || c.isUpper || c == '_')

/-! ## Embedded Go `strings` primitives (list-of-char level) -/

/-- Embedding of Go `strings.ReplaceAll(s, old, new)` for a single-character
`old` pattern — the only form the generator calls (`"-"`, `"{"`, `"}"`):
every occurrence of `old` is replaced by `rep`, scanning left to right. -/
def replaceAllL (old : Char) (rep : List Char) : List Char → List Char
  | [] => []
  | c :: cs => (if c = old then rep else [c]) ++ replaceAllL old rep cs

/-- Embedding of Go `strings.Split(s, sep)` for a single-character separator:
`strings.Split("", sep) = [""]`, and each separator occurrence opens a new
(possibly empty) segment. -/
def splitOnCharL (sep : Char) : List Char → List (List Char)
  | [] => [[]]
  | c :: cs =>
    if c = sep then
      [] :: splitOnCharL sep cs
    else
      match splitOnCharL sep cs with
      | [] => [[c]]
      | h :: t => (c :: h) :: t

/-- Embedding of Go `strings.Trim(s, "/")` (single-character cutset): remove
every leading and trailing occurrence of `c`. -/
def trimCharL (c : Char) (l : List Char) : List Char :=
  ((l.dropWhile (· == c)).reverse.dropWhile (· == c)).reverse

/-- Helper for the embedding of Go `strings.Title`: `prev` is the previous
rune (initially a space); a rune is title-cased exactly when the previous
rune is a separator, and every rune becomes the next `prev`. -/
def goTitleAux : Char → List Char → List Char
  | _, [] => []
  | prev, c :: cs => (if goIsSeparator prev then c.toUpper else c) :: goTitleAux c cs

/-- Embedding of Go `strings.Title` (ASCII fragment): title-case every rune
that follows a separator, leave all other runes unchanged. -/
def goTitleL (l : List Char) : List Char :=
  goTitleAux ' ' l

/-- Modelled from the documented behavior of the external library caser
`cases.Title(language.English)` of `golang.org/x/text/cases` on ASCII input
(the library itself is not part of this repository): words are maximal runs
of alphanumeric runes, the first cased (alphabetic) rune of each word is
title-cased, every later alphabetic rune of the word is lower-cased, digits
and non-word runes pass through, and a non-word rune ends the current word.
The flag records whether the current word has already produced its cased
rune. -/
def xTextTitleAux : Bool → List Char → List Char
  | _, [] => []
  | seenCased, c :: cs =>
    if c.isAlpha then
      (if seenCased then c.toLower else c.toUpper) :: xTextTitleAux true cs
    else if c.isDigit then
      c :: xTextTitleAux seenCased cs
    else
      c :: xTextTitleAux false cs

/-- Modelled `cases.Title(language.English).String` on ASCII input; see
`xTextTitleAux`. -/
def xTextTitleL (l : List Char) : List Char :=
  xTextTitleAux false l

/-- Embedding of Go `strings.ToUpper` (ASCII fragment, the generator only
upper-cases HTTP method tokens). -/
def goToUpper (s : String) : String :=
  ⟨s.data.map Char.toUpper⟩

/-- Embedding of Go `strings.ToLower` (ASCII fragment). -/
def goToLower (s : String) : String :=
  ⟨s.data.map Char.toLower⟩

/-- Embedding of Go `path/filepath.Ext`: scan the path from the end; stop at
a path separator with no extension, or return the suffix starting at the
first dot found.  The first argument accumulates the runes already passed. -/
def extRevAux : List Char → List Char → String
  | [], _ => ""
  | c :: cs, acc =>
    if c = '/' then ""
    else if c = '.' then ⟨c :: acc⟩
    else extRevAux cs (c :: acc)

/-- Embedding of Go `path/filepath.Ext` on a path string. -/
def goFilepathExt (p : String) : String :=
  extRevAux p.data.reverse []

/-! ## Data model (`internal/models/openapi.go`) -/

/-- Embedding of `models.Schema`.  The fields `Enum`, `AllOf`, `OneOf`,
`AnyOf`, `Not` and `AdditionalProperties` of the Go struct are carried by no
embedded computation (the generation core accepts them syntactically and
never reads them), so they are omitted from the embedding. -/
inductive Schema where
  | mk (type : String) (format : String) (properties : List (String × Schema))
      (items : Option Schema) (ref : String) (required : List String)
      (description : String)

/-- Projection of the `Type` field of `models.Schema`. -/
def Schema.type : Schema → String
  | .mk t _ _ _ _ _ _ => t

/-- Projection of the `Format` field of `models.Schema`. -/
def Schema.format : Schema → String
  | .mk _ f _ _ _ _ _ => f

/-- Projection of the `Properties` field of `models.Schema`. -/
def Schema.properties : Schema → List (String × Schema)
  | .mk _ _ p _ _ _ _ => p

/-- Projection of the `Items` field of `models.Schema`. -/
def Schema.items : Schema → Option Schema
  | .mk _ _ _ i _ _ _ => i

/-- Projection of the `Ref` field of `models.Schema`. -/
def Schema.ref : Schema → String
  | .mk _ _ _ _ r _ _ => r

/-- Embedding of `models.Parameter`. -/
structure Parameter where
  name : String
  «in» : String
  required : Bool
  description : String
  schema : Schema

/-- Embedding of the anonymous `struct { Schema Schema }` content entries of
`models.RequestBody` and `models.Response`. -/
structure MediaContent where
  schema : Schema

/-- Embedding of `models.RequestBody`. -/
structure RequestBody where
  required : Bool
  content : List (String × MediaContent)

/-- Embedding of `models.Response`. -/
structure Response where
  description : String
  content : List (String × MediaContent)

/-- Embedding of `models.Operation`. -/
structure Operation where
  method : String
  operationID : String
  summary : String
  description : String
  parameters : List Parameter
  requestBody : Option RequestBody
  responses : List (String × Response)
  tags : List String

/-- Embedding of the anonymous `Info` struct of `models.OpenAPISpec`. -/
structure Info where
  title : String
  version : String
  description : String

/-- Embedding of the anonymous `Components` struct of `models.OpenAPISpec`. -/
structure Components where
  schemas : List (String × Schema)

/-- Embedding of `models.OpenAPISpec`.  Go maps are embedded as association
lists; the list order stands for the map's iteration order. -/
structure OpenAPISpec where
  info : Info
  paths : List (String × List (String × Operation))
  components : Components

/-! ## Type resolver (`pkg/utils` `GetGoType`) -/

/-- Embedding of the reference branch of `utils.GetGoType`:
`parts := strings.Split(schema.Ref, "/"); return parts[len(parts)-1]`. -/
def lastSlashSegment (r : String) : String :=
  ⟨((splitOnCharL '/' r.data).getLast?).getD []⟩

/-- Embedding of `utils.GetGoType` (`pkg/utils`): resolve a schema node to a
Go type expression. -/
def getGoType : Schema → String
  | .mk ty fmt _props items ref _req _desc =>
    if ref ≠ "" then
      lastSlashSegment ref
    else
      match ty with
      | "integer" =>
        match fmt with
        | "int32" => "int32"
        | "int64" => "int64"
        | _ => "int"
      | "number" =>
        match fmt with
        | "float" => "float32"
        | "double" => "float64"
        | _ => "float64"
      | "boolean" => "bool"
      | "string" =>
        match fmt with
        | "byte" => "[]byte"
        | "binary" => "[]byte"
        | "date" | "date-time" => "time.Time"
        | _ => "string"
      | "array" =>
        match items with
        | some it => "[]" ++ getGoType it
        | none => "[]interface\x7b\x7d"
      | "object" => "map[string]interface\x7b\x7d"
      | _ => "interface\x7b\x7d"

/-- The type-resolution function exactly as the specification documents it
(§4.2 resolution order), written from the spec's words for comparison with
the embedded `getGoType`: reference first, then the
string/integer/number/boolean/array/object rows of the matrix, with the
dynamic-type fallback for everything else. -/
def specGoType : Schema → String
  | .mk ty fmt _props items ref _req _desc =>
    if ref ≠ "" then
      lastSlashSegment ref
    else
      match ty with
      | "string" =>
        match fmt with
        | "date" | "date-time" => "time.Time"
        | "byte" | "binary" => "[]byte"
        | _ => "string"
      | "integer" =>
        match fmt with
        | "int32" => "int32"
        | "int64" => "int64"
        | _ => "int"
      | "number" =>
        match fmt with
        | "float" => "float32"
        | _ => "float64"
      | "boolean" => "bool"
      | "array" =>
        match items with
        | some it => "[]" ++ specGoType it
        | none => "[]interface\x7b\x7d"
      | "object" => "map[string]interface\x7b\x7d"
      | _ => "interface\x7b\x7d"

/-- Fuel-indexed variant of `getGoType`: the recursion of the resolver made
explicit, returning `none` when the fuel runs out before the `Items` chain
bottoms out.  Used to state that the resolver terminates within the schema's
`Items`-nesting depth. -/
def getGoTypeFuel : Nat → Schema → Option String
  | 0, _ => none
  | n + 1, .mk ty fmt _props items ref _req _desc =>
    if ref ≠ "" then
      some (lastSlashSegment ref)
    else
      match ty with
      | "integer" =>
        match fmt with
        | "int32" => some "int32"
        | "int64" => some "int64"
        | _ => some "int"
      | "number" =>
        match fmt with
        | "float" => some "float32"
        | "double" => some "float64"
        | _ => some "float64"
      | "boolean" => some "bool"
      | "string" =>
        match fmt with
        | "byte" => some "[]byte"
        | "binary" => some "[]byte"
        | "date" | "date-time" => some "time.Time"
        | _ => some "string"
      | "array" =>
        match items with
        | some it => (getGoTypeFuel n it).map (fun t => "[]" ++ t)
        | none => some "[]interface\x7b\x7d"
      | "object" => some "map[string]interface\x7b\x7d"
      | _ => some "interface\x7b\x7d"

/-- Nesting depth of the `Items` chain of a schema: the only structure the
type resolver recurses through. -/
def itemsDepth : Schema → Nat
  | .mk _ _ _ (some it) _ _ _ => itemsDepth it + 1
  | .mk _ _ _ none _ _ _ => 0

/-! ## Identifier normalizers -/

/-- Embedding of `parser.ToCamelCase` (`internal/parser/openapi.go`): replace
`-` by `_`, split on `_`, apply Go `strings.Title` to every part, join with
no separator. -/
def parserToCamelCase (s : String) : String :=
  ⟨(List.map goTitleL (splitOnCharL '_' (replaceAllL '-' ['_'] s.data))).flatten⟩

/-- Embedding of `utils.ToCamelCase` (`pkg/utils`): replace `-` by `_`, split
on `_`, apply the `cases.Title(language.English)` caser to every non-empty
part, join with no separator. -/
def utilsToCamelCase (s : String) : String :=
  ⟨(List.map (fun p => if p.length > 0 then xTextTitleL p else p)
      (splitOnCharL '_' (replaceAllL '-' ['_'] s.data))).flatten⟩

/-! ## Path translator (`pkg/utils` `ConvertPathToGin`) -/

/-- Embedding of `utils.ConvertPathToGin`:
`strings.ReplaceAll(strings.ReplaceAll(path, "{", ":"), "}", "")`. -/
def convertPathToGin (path : String) : String :=
  ⟨replaceAllL '\x7d' [] (replaceAllL '\x7b' [':'] path.data)⟩

/-! ## Spec normalizer (`internal/parser` `ProcessSpec`) -/

/-- Embedding of the per-operation body of `parser.ProcessSpec`: upper-case
the method token, default empty tags to `["default"]`, and synthesize a
missing operation identifier from the method and the last segment of the
trimmed path (`"root"` when the split yields no parts). -/
def processOperation (path method : String) (op : Operation) : Operation :=
  let op1 := { op with method := goToUpper method }
  let op2 := if op1.tags.length = 0 then { op1 with tags := ["default"] } else op1
  if op2.operationID = "" then
    let pathParts := splitOnCharL '/' (trimCharL '/' path.data)
    let name : String :=
      match pathParts.getLast? with
      | some seg => ⟨seg⟩
      | none => "root"
    { op2 with operationID := goToLower method ++ parserToCamelCase name }
  else
    op2

/-- Embedding of `parser.ProcessSpec`: apply the per-operation normalization
to every method entry of every path, leaving everything else as it was. -/
def processSpec (spec : OpenAPISpec) : OpenAPISpec :=
  { spec with
    paths := spec.paths.map (fun pm => (pm.1, pm.2.map (fun mo => (mo.1, processOperation pm.1 mo.1 mo.2)))) }

/-! ## Loader dispatch (`internal/parser` `ParseSpecFile`) -/

/-- The decision `parser.ParseSpecFile` takes for a readable file: which
deserializer the raw bytes are handed to, or the unsupported-format error
returned without any parsing. -/
inductive ParseAttempt where
  | yaml (data : String)
  | json (data : String)
  | unsupported (msg : String)
deriving DecidableEq

/-- Embedding of the dispatch portion of `parser.ParseSpecFile` (the file's
bytes have already been read into `data`): lower-case the extension of the
path, hand the bytes to the YAML deserializer for `.yaml`/`.yml`, to the JSON
deserializer for `.json`, and otherwise return the unsupported-format error
without touching the bytes. -/
def parseSpecFileDispatch (filePath : String) (data : String) : ParseAttempt :=
  let ext := goToLower (goFilepathExt filePath)
  if ext = ".yaml" ∨ ext = ".yml" then
    .yaml data
  else if ext = ".json" then
    .json data
  else
    .unsupported ("unsupported file format: " ++ ext)

/-! ## Generator data (`internal/generator`) -/

/-- Embedding of `generator.Config`. -/
structure Config where
  outputDir : String
  packageName : String
  moduleName : String

/-- Embedding of `generator.PathParam`. -/
structure PathParam where
  name : String
  type : String

/-- Embedding of `generator.Handler` (`internal/generator/api.go`). -/
structure Handler where
  method : String
  path : String
  handlerName : String
  summary : String
  description : String
  pathParams : List PathParam
  hasPathParams : Bool

/-- Embedding of `generator.Route` (server generation). -/
structure Route where
  method : String
  path : String
  handlerName : String
  pathParams : List PathParam
  hasPathParams : Bool

/-- Embedding of the path-parameter extraction loop shared by the generator:
keep the parameters whose location is `"path"`, carrying their name and the
resolved Go type of their schema. -/
def extractPathParams (params : List Parameter) : List PathParam :=
  (params.filter (fun prm => prm.«in» = "path")).map
    (fun prm => { name := prm.name, type := getGoType prm.schema })

/-- Embedding of the handler-collection loop of `GenerateAPIFile`: one
`Handler` per path/method pair, in the iteration order of the embedded
maps. -/
def apiHandlers (spec : OpenAPISpec) : List Handler :=
  spec.paths.flatMap (fun po =>
    po.2.map (fun mo =>
      let pathParams := extractPathParams mo.2.parameters
      { method := goToUpper mo.1
        path := po.1
        handlerName := utilsToCamelCase mo.2.operationID
        summary := mo.2.summary
        description := mo.2.description
        pathParams := pathParams
        hasPathParams := decide (pathParams.length > 0) }))

/-- Rendering of the parameter-signature fragment
`{{range $index, $param := .PathParams}}{{if $index}}, {{end}}{{.Name}} {{.Type}}{{end}}`
of the api template. -/
def renderParamSig (ps : List PathParam) : String :=
  String.intercalate ", " (ps.map (fun p => p.name ++ " " ++ p.type))

/-- Embedding of the template execution of `GenerateAPIFile`
(`internal/generator/api.go`): the fixed `text/template` literal with the
handler list substituted in, exactly as `text/template` emits it. -/
def renderAPIFile (spec : OpenAPISpec) : String :=
  let handlers := apiHandlers spec
  "package api\n\nimport (\n\t\"github.com/gin-gonic/gin\"\n)\n\n// API defines the interface for all API operations\ntype API interface \x7b\n\t"
    ++ String.join (handlers.map (fun h =>
        "\n\t// " ++ h.handlerName ++ " handles " ++ h.method ++ " " ++ h.path
        ++ "\n\t" ++ (if h.summary ≠ "" then "// " ++ h.summary else "")
        ++ "\n\t" ++ (if h.description ≠ "" then "// " ++ h.description else "")
        ++ "\n\t" ++ h.handlerName ++ "(c *gin.Context"
        ++ (if h.hasPathParams then ", " ++ renderParamSig h.pathParams else "")
        ++ ")\n\t"))
    ++ "\n\x7d\n\n// DefaultAPI provides a default implementation of the API interface\ntype DefaultAPI struct \x7b\x7d\n\n// NewAPI creates a new API handler\nfunc NewAPI() API \x7b\n\treturn &DefaultAPI\x7b\x7d\n\x7d\n\n"
    ++ String.join (handlers.map (fun h =>
        "\n// " ++ h.handlerName ++ " handles " ++ h.method ++ " " ++ h.path
        ++ "\nfunc (a *DefaultAPI) " ++ h.handlerName ++ "(c *gin.Context"
        ++ (if h.hasPathParams then ", " ++ renderParamSig h.pathParams else "")
        ++ ") \x7b\n\t// TODO: Implement me\n\tc.JSON(200, gin.H\x7b\"message\": \"Not implemented\"\x7d)\n\x7d\n"))
    ++ "\n"

/-- Embedding of the route-collection loop of `GenerateServerFile`
(`internal/generator`, module-name variant): one `Route` per path/method
pair, with the path translated to Gin syntax and the method token passed
through `strings.ToUpper` and the `cases.Title` caser. -/
def serverRoutes (spec : OpenAPISpec) : List Route :=
  spec.paths.flatMap (fun po =>
    po.2.map (fun mo =>
      let pathParams := extractPathParams mo.2.parameters
      { method := ⟨xTextTitleL (goToUpper mo.1).data⟩
        path := convertPathToGin po.1
        handlerName := utilsToCamelCase mo.2.operationID
        pathParams := pathParams
        hasPathParams := decide (pathParams.length > 0) }))

/-- Embedding of the template execution of `GenerateServerFile` (the variant
taking a module name): the fixed server `text/template` literal with the
route list substituted in. -/
def renderServerFile (spec : OpenAPISpec) (packageName moduleName : String) : String :=
  let _ := packageName
  let routes := serverRoutes spec
  "package server\n\nimport (\n\t\"github.com/gin-gonic/gin\"\n\t\"" ++ moduleName ++ "/api\"\n)\n\n"
    ++ "// Server represents the API server\ntype Server struct \x7b\n\trouter *gin.Engine\n\tapi    api.API\n\x7d\n\n"
    ++ "// ServerOption represents a server option function\ntype ServerOption func(*Server)\n\n"
    ++ "// WithMiddleware adds middleware to the server\nfunc WithMiddleware(middleware ...gin.HandlerFunc) ServerOption \x7b\n\treturn func(s *Server) \x7b\n\t\ts.router.Use(middleware...)\n\t\x7d\n\x7d\n\n"
    ++ "// WithMode sets the gin mode (debug, release, test)\nfunc WithMode(mode string) ServerOption \x7b\n\treturn func(s *Server) \x7b\n\t\tgin.SetMode(mode)\n\t\x7d\n\x7d\n\n"
    ++ "// NewServer creates a new API server\nfunc NewServer(api api.API, options ...ServerOption) *Server \x7b\n\ts := &Server\x7b\n\t\trouter: gin.Default(),\n\t\tapi:    api,\n\t\x7d\n\t\n\t// Apply options\n\tfor _, option := range options \x7b\n\t\toption(s)\n\t\x7d\n\t\n\ts.setupRoutes()\n\treturn s\n\x7d\n\n"
    ++ "// Start starts the server on the specified address\nfunc (s *Server) Start(addr string) error \x7b\n\treturn s.router.Run(addr)\n\x7d\n\n"
    ++ "// GetRouter returns the Gin router instance\nfunc (s *Server) GetRouter() *gin.Engine \x7b\n\treturn s.router\n\x7d\n\n"
    ++ "// setupRoutes configures the API routes\nfunc (s *Server) setupRoutes() \x7b\n"
    ++ String.join (routes.map (fun r =>
        "\n\ts.router." ++ r.method ++ "(\"" ++ r.path ++ "\", func(c *gin.Context) \x7b\n\t\t"
        ++ (if r.hasPathParams then
              "\n\t\t"
              ++ String.join (r.pathParams.map (fun p =>
                  "\n\t\t" ++ p.name ++ " := c.Param(\"" ++ p.name ++ "\")\n\t\t"))
              ++ "\n\t\t"
            else "")
        ++ "\n\t\ts.api." ++ r.handlerName ++ "(c"
        ++ (if r.hasPathParams then
              ", " ++ String.intercalate ", " (r.pathParams.map (fun p => p.name))
            else "")
        ++ ")\n\t\x7d)\n"))
    ++ "\n\x7d\n"

mutual

/-- Embedding of `generator.hasTimeFields`: a schema needs the `time` import
when it is a date/date-time string, or some property or the items schema
does. -/
def hasTimeFields : Schema → Bool
  | .mk ty fmt props items _ref _req _desc =>
    (ty = "string" && (fmt = "date" || fmt = "date-time"))
      || hasTimeFieldsProps props
      || (match items with
          | some it => hasTimeFields it
          | none => false)

/-- The property-loop of `generator.hasTimeFields`. -/
def hasTimeFieldsProps : List (String × Schema) → Bool
  | [] => false
  | p :: rest => hasTimeFields p.2 || hasTimeFieldsProps rest

end

/-- Insertion step of the key-ordering `text/template` applies when ranging
over a Go map: keys are visited in ascending string order. -/
def insertByKey (p : String × Schema) : List (String × Schema) → List (String × Schema)
  | [] => [p]
  | q :: rest => if q.1 < p.1 then q :: insertByKey p rest else p :: q :: rest

/-- Key-sorted view of an embedded map, as `text/template`'s `range` visits
it. -/
def sortByKey (l : List (String × Schema)) : List (String × Schema) :=
  l.foldr insertByKey []

/-- Embedding of `GenerateModels` rendering (`internal/generator/models.go`,
time-import variant): the fixed models template; `text/template` ranges over
the `Schemas` and `Properties` maps in ascending key order. -/
def renderModels (spec : OpenAPISpec) : String :=
  let needsTimeImport := spec.components.schemas.any (fun kv => hasTimeFields kv.2)
  let imports := if needsTimeImport then "import (\n\t\"time\"\n)" else ""
  "package models\n\n" ++ imports
    ++ "\n\n// This file contains the data models for the API\n// In a real implementation, these would be fully generated from the schema definitions\n\n"
    ++ "// ResponseMessage is a simple response model\ntype ResponseMessage struct \x7b\n\tMessage string `json:\"message\"`\n\x7d\n\n"
    ++ "// ErrorResponse represents an API error response\ntype ErrorResponse struct \x7b\n\tCode    int    `json:\"code\"`\n\tMessage string `json:\"message\"`\n\x7d\n\n"
    ++ String.join ((sortByKey spec.components.schemas).map (fun ns =>
        "\n// " ++ ns.1 ++ " represents a " ++ ns.1 ++ " model\ntype " ++ ns.1 ++ " struct \x7b\n\t"
        ++ String.join ((sortByKey ns.2.properties).map (fun ps =>
            "\n\t" ++ utilsToCamelCase ps.1 ++ " " ++ getGoType ps.2
            ++ " `json:\"" ++ ps.1 ++ "\"`\n\t"))
        ++ "\n\x7d\n"))
    ++ "\n"

/-- Embedded render of the endpoint-listing entries of `GenerateMainFile`. -/
structure Endpoint where
  method : String
  path : String
  description : String

/-- Embedding of the endpoint-collection loop of `GenerateMainFile`: one
entry per path/method pair, describing it by its summary, else description,
else a fixed fallback. -/
def mainEndpoints (spec : OpenAPISpec) : List Endpoint :=
  spec.paths.flatMap (fun po =>
    po.2.map (fun mo =>
      let description :=
        if mo.2.summary = "" then
          if mo.2.description = "" then "No description available" else mo.2.description
        else mo.2.summary
      { method := mo.1, path := po.1, description := description }))

/-- Embedding of the template execution of `GenerateMainFile`: the fixed
entry-point template with the module name and endpoint log lines substituted
in. -/
def renderMainFile (spec : OpenAPISpec) (moduleName : String) : String :=
  "package main\n\nimport (\n\t\"context\"\n\t\"log\"\n\t\"net/http\"\n\t\"os\"\n\t\"os/signal\"\n\t\"syscall\"\n\t\"time\"\n\n\t\""
    ++ moduleName ++ "/api\"\n\t\"" ++ moduleName ++ "/server\"\n)\n\n"
    ++ "func main() \x7b\n\t// Get port from environment variable or use default\n\tport := os.Getenv(\"PORT\")\n\tif port == \"\" \x7b\n\t\tport = \"8080\"\n\t\x7d\n\n"
    ++ "\t// Create API implementation\n\tapiImpl := api.NewAPI()\n\n"
    ++ "\t// Create server with options\n\tsrv := server.NewServer(apiImpl,\n\t\tserver.WithMode(\"debug\"), // Change to \"release\" for production\n\t)\n\n"
    ++ "\t// Create HTTP server\n\thttpServer := &http.Server\x7b\n\t\tAddr:    \":\" + port,\n\t\tHandler: srv.GetRouter(),\n\t\x7d\n\n"
    ++ "\t// Setup graceful shutdown\n\tserverCtx, serverStopCtx := context.WithCancel(context.Background())\n\n"
    ++ "\t// Listen for syscall signals for graceful shutdown\n\tsig := make(chan os.Signal, 1)\n\tsignal.Notify(sig, syscall.SIGHUP, syscall.SIGINT, syscall.SIGTERM, syscall.SIGQUIT)\n\tgo func() \x7b\n\t\t<-sig\n\n"
    ++ "\t\t// Shutdown signal with grace period of 30 seconds\n\t\tshutdownCtx, cancelShutdown := context.WithTimeout(serverCtx, 30*time.Second)\n\t\tdefer cancelShutdown()\n\n"
    ++ "\t\tgo func() \x7b\n\t\t\t<-shutdownCtx.Done()\n\t\t\tif shutdownCtx.Err() == context.DeadlineExceeded \x7b\n\t\t\t\tlog.Fatal(\"graceful shutdown timed out.. forcing exit.\")\n\t\t\t\x7d\n\t\t\x7d()\n\n"
    ++ "\t\t// Trigger graceful shutdown\n\t\terr := httpServer.Shutdown(shutdownCtx)\n\t\tif err != nil \x7b\n\t\t\tlog.Fatalf(\"Server shutdown failed: %v\", err)\n\t\t\x7d\n\t\tserverStopCtx()\n\t\x7d()\n\n"
    ++ "\t// Start server\n\tlog.Printf(\"Starting server on :%s\", port)\n\tlog.Printf(\"API endpoints:\")\n\t"
    ++ String.join ((mainEndpoints spec).map (fun e =>
        "\n\tlog.Printf(\"  " ++ e.method ++ " " ++ e.path ++ " - " ++ e.description ++ "\")\n\t"))
    ++ "\n\tlog.Printf(\"Press Ctrl+C to stop the server\")\n\n"
    ++ "\terr := httpServer.ListenAndServe()\n\tif err != nil && err != http.ErrServerClosed \x7b\n\t\tlog.Fatalf(\"Server failed to start: %v\", err)\n\t\x7d\n\n"
    ++ "\t// Wait for server context to be stopped\n\t<-serverCtx.Done()\n\tlog.Printf(\"Server stopped gracefully\")\n\x7d\n"

/-- Embedded render data of the operations of
`GenerateImplementationTemplate`. -/
structure ImplOperation where
  handlerName : String
  description : String
  comment : String
  params : String
  defaultResponse : String

/-- Embedding of the operation-collection loop of
`GenerateImplementationTemplate`: handler name, description (summary first),
a method/path comment, the path-parameter signature fragment, and a default
response body chosen by HTTP method. -/
def implOperations (spec : OpenAPISpec) : List ImplOperation :=
  spec.paths.flatMap (fun po =>
    po.2.map (fun mo =>
      let handlerName := utilsToCamelCase mo.2.operationID
      let description := if mo.2.summary = "" then mo.2.description else mo.2.summary
      let comment :=
        "// " ++ goToUpper mo.1 ++ " " ++ po.1
          ++ (if description ≠ "" then "\n// " ++ description else "")
      let params := (mo.2.parameters.filter (fun prm => prm.«in» = "path")).map
        (fun prm => prm.name ++ " string")
      let paramStr := if params.length > 0 then ", " ++ String.intercalate ", " params else ""
      let defaultResp :=
        if goToUpper mo.1 = "POST" then
          "c.JSON(http.StatusCreated, gin.H\x7b\n\t\t\"message\": \"Created successfully\",\n\t\x7d)"
        else if goToUpper mo.1 = "GET" then
          "c.JSON(http.StatusOK, gin.H\x7b\n\t\t\"data\": \"TODO: Return your data here\",\n\t\x7d)"
        else
          "c.JSON(http.StatusNotImplemented, gin.H\x7b\n\t\t\"error\": \"Not implemented\",\n\t\t\"message\": \"Please implement this endpoint\",\n\t\x7d)"
      { handlerName := handlerName
        description := description
        comment := comment
        params := paramStr
        defaultResponse := defaultResp }))

/-- Embedding of the template execution of
`GenerateImplementationTemplate` (`internal/generator`): the fixed
implementation-stub template with the operation blocks substituted in. -/
def renderImplementation (spec : OpenAPISpec) (moduleName : String) : String :=
  let _ := moduleName
  "package api\n\nimport (\n\t\"net/http\"\n\t\"github.com/gin-gonic/gin\"\n)\n\n"
    ++ "// APIImplementation provides a concrete implementation of the API interface\n// TODO: Implement your business logic in these methods\ntype APIImplementation struct \x7b\n\t// Add your dependencies here (database, services, etc.)\n\t// db     *sql.DB\n\t// logger *log.Logger\n\x7d\n\n"
    ++ "// NewAPI creates a new API implementation\nfunc NewAPI() API \x7b\n\treturn &APIImplementation\x7b\n\t\t// Initialize your dependencies here\n\t\x7d\n\x7d\n\n"
    ++ String.join ((implOperations spec).map (fun o =>
        "\n// " ++ o.handlerName ++ " " ++ o.description ++ "\n" ++ o.comment
        ++ "\nfunc (impl *APIImplementation) " ++ o.handlerName ++ "(c *gin.Context" ++ o.params
        ++ ") \x7b\n\t// TODO: Implement your business logic here\n\t" ++ o.defaultResponse
        ++ "\n\x7d\n\n"))

/-- Embedding of the template execution of `GenerateReadme`: the fixed usage
guide with the title, version and package name substituted in. -/
def renderReadme (spec : OpenAPISpec) (packageName : String) : String :=
  let title := spec.info.title
  let version := spec.info.version
  "# Generated API for " ++ title ++ "\n\nThis code was generated using GopenAPI for the " ++ title
    ++ " API (version " ++ version ++ ").\n\n## Usage\n\nTo use this generated API in your project:\n\n### 1. Implement the API interface\n\nCreate a custom implementation of the API interface:\n\n"
    ++ "```go\npackage main\n\nimport (\n\t\"github.com/gin-gonic/gin\"\n\t\n\t\"" ++ packageName
    ++ "/generated/api\"\n\t\"" ++ packageName ++ "/generated/server\"\n)\n\n"
    ++ "// CustomAPI implements the generated API interface\ntype CustomAPI struct \x7b\n\t// Add your dependencies here (database connections, etc.)\n\x7d\n\n"
    ++ "// Ensure CustomAPI implements the API interface\nvar _ api.API = (*CustomAPI)(nil)\n\n"
    ++ "// Example implementation of a generated method\nfunc (a *CustomAPI) ListUsers(c *gin.Context) \x7b\n\t// Your implementation here\n\tusers := []map[string]interface\x7b\x7d\x7b\n\t\t\x7b\"id\": \"1\", \"name\": \"John Doe\"\x7d,\n\t\t\x7b\"id\": \"2\", \"name\": \"Jane Smith\"\x7d,\n\t\x7d\n\tc.JSON(200, users)\n\x7d\n\n"
    ++ "// Implement all other methods defined in the API interface...\n```\n\n### 2. Create and run the server\n\n"
    ++ "```go\npackage main\n\nimport (\n\t\"log\"\n\t\n\t\"" ++ packageName ++ "/generated/api\"\n\t\"" ++ packageName ++ "/generated/server\"\n)\n\n"
    ++ "func main() \x7b\n\t// Create your API implementation\n\tcustomAPI := &CustomAPI\x7b\x7d\n\t\n\t// Create the server with your API implementation\n\tsrv := server.NewServer(customAPI)\n\t\n\t// Start the server\n\tlog.Println(\"Starting server on :8080\")\n\tif err := srv.Start(\":8080\"); err != nil \x7b\n\t\tlog.Fatal(err)\n\t\x7d\n\x7d\n```\n\n"
    ++ "### 3. Or use with an existing Gin application\n\n"
    ++ "```go\npackage main\n\nimport (\n\t\"github.com/gin-gonic/gin\"\n\t\n\t\"" ++ packageName ++ "/generated/api\"\n\t\"" ++ packageName ++ "/generated/server\"\n)\n\n"
    ++ "func main() \x7b\n\t// Create your existing Gin router\n\trouter := gin.Default()\n\t\n\t// Add some custom middleware or routes\n\trouter.Use(customMiddleware())\n\trouter.GET(\"/health\", healthCheckHandler)\n\t\n\t// Create your API implementation\n\tcustomAPI := &CustomAPI\x7b\x7d\n\t\n\t// Create the server with your API implementation\n\tsrv := server.NewServer(customAPI, server.WithMiddleware(loggerMiddleware()))\n\t\n\t// Get the Gin router from the server and add it to your existing router\n\tapiRouter := srv.GetRouter()\n\t\n\t// Use the API routes in your application\n\trouter.Any(\"/api/*path\", func(c *gin.Context) \x7b\n\t\tapiRouter.HandleContext(c)\n\t\x7d)\n\t\n\t// Start your server\n\trouter.Run(\":8080\")\n\x7d\n```\n"

/-- Embedding of the `go.mod` content written by `GenerateGoMod`. -/
def goModContent (moduleName : String) : String :=
  "module " ++ moduleName ++ "\n\ngo 1.22\n\nrequire (\n\tgithub.com/gin-gonic/gin v1.10.0\n)\n"

/-! ## The emitter's filesystem effect (`GenerateCode`) -/

/-- The output directory as the emitter observes it: an association of
artifact paths (relative to the output root) to file contents.  Writing
prepends, so the newest entry for a path is its content. -/
abbrev FileSystem := List (String × String)

/-- Content of the file at `path`, or `none` when no file exists there. -/
def fsLookup : FileSystem → String → Option String
  | [], _ => none
  | e :: rest, q => if e.1 = q then some e.2 else fsLookup rest q

/-- Write (create or overwrite) the file at `p` with content `c`. -/
def fsWrite (fs : FileSystem) (p c : String) : FileSystem :=
  (p, c) :: fs

/-- Embedding of the emission sequence of `GenerateCode` (the variant with
`GenerateImplementationTemplate`): default the module name to the package
name; write `go.mod` unconditionally; write `main.go` only when absent;
always write `server/server.go`, `api/api.go`, `models/models.go` and
`README.md`; write `api/implementation.go` only when absent.  Directory
creation touches no file contents and the error path (aborting on the first
failed write) is not modelled. -/
def generateCode (spec : OpenAPISpec) (config : Config) (fs : FileSystem) : FileSystem :=
  let moduleName := if config.moduleName = "" then config.packageName else config.moduleName
  let fs1 := fsWrite fs "go.mod" (goModContent moduleName)
  let fs2 :=
    match fsLookup fs1 "main.go" with
    | none => fsWrite fs1 "main.go" (renderMainFile spec moduleName)
    | some _ => fs1
  let fs3 := fsWrite fs2 "server/server.go" (renderServerFile spec config.packageName moduleName)
  let fs4 := fsWrite fs3 "api/api.go" (renderAPIFile spec)
  let fs5 := fsWrite fs4 "models/models.go" (renderModels spec)
  let fs6 := fsWrite fs5 "README.md" (renderReadme spec config.packageName)
  match fsLookup fs6 "api/implementation.go" with
  | none => fsWrite fs6 "api/implementation.go" (renderImplementation spec moduleName)
  | some _ => fs6

/-! ## Map lookup on the embedded association lists -/

/-- Go map indexing on an embedded map: the value stored at `k`, or `none`. -/
def assocFind {α : Type} : List (String × α) → String → Option α
  | [], _ => none
  | e :: rest, k => if e.1 = k then some e.2 else assocFind rest k

/-- The operation stored in `spec.Paths[p][m]`, when both keys are present. -/
def lookupOperation (spec : OpenAPISpec) (p m : String) : Option Operation :=
  (assocFind spec.paths p).bind (fun ms => assocFind ms m)

/-! ## Claim-side definitions (written from the specification's words) -/

/-- The casing rule the specification states for the identifier normalizer:
upper-case only the first letter of a segment and leave the rest of the
segment exactly as it was. -/
def capitalizeFirstOnly : List Char → List Char
  | [] => []
  | c :: cs => c.toUpper :: cs

/-- A URL template as the specification describes it: literal text
interleaved with named placeholders. -/
inductive PathPiece where
  | lit (s : String)
  | param (name : String)

/-- The OpenAPI rendering of a URL template: each placeholder `name` appears
as `\x7bname\x7d`. -/
def renderOpenAPIL : List PathPiece → List Char
  | [] => []
  | .lit s :: ps => s.data ++ renderOpenAPIL ps
  | .param n :: ps => '\x7b' :: (n.data ++ ('\x7d' :: renderOpenAPIL ps))

/-- The Gin rendering of the same URL template: each placeholder `name`
appears as `:name`. -/
def renderGinL : List PathPiece → List Char
  | [] => []
  | .lit s :: ps => s.data ++ renderGinL ps
  | .param n :: ps => ':' :: (n.data ++ renderGinL ps)

/-- A string with no brace characters (no placeholder syntax at all). -/
def braceFree (s : String) : Bool :=
  s.data.all (fun c => c ≠ '\x7b' && c ≠ '\x7d')

/-- Well-formedness of a URL template: neither literals nor placeholder
names contain brace characters. -/
def wfTemplate : List PathPiece → Bool
  | [] => true
  | .lit s :: ps => braceFree s && wfTemplate ps
  | .param n :: ps => braceFree n && wfTemplate ps

/-! ## Concrete instances used by witnesses and counterexamples -/

/-- An operation with every field empty: nothing declared. -/
def emptyOperation : Operation :=
  ⟨"", "", "", "", [], none, [], []⟩

/-- Specification with the three paths of the operation-identifier-synthesis
examples, none of whose operations declare an identifier or tags. -/
def c3Spec : OpenAPISpec :=
  ⟨⟨"", "", ""⟩,
    [("/users", [("get", emptyOperation)]),
      ("/complex/path/with/segments", [("delete", emptyOperation)]),
      ("/", [("get", emptyOperation)])],
    ⟨[]⟩⟩

/-- The template pieces of `/users/\x7buserId\x7d/posts/\x7bpostId\x7d`. -/
def c9Pieces : List PathPiece :=
  [.lit "/users/", .param "userId", .lit "/posts/", .param "postId"]

/-- An array-of-array-of-reference schema, of items-depth two. -/
def c8Schema : Schema :=
  .mk "array" "" []
    (some (.mk "array" "" [] (some (.mk "" "" [] none "#/components/schemas/User" [] "")) "" [] ""))
    "" [] ""

/-- A path parameter declaration for the frame-claim witness. -/
def c10Param : Parameter :=
  ⟨"id", "path", true, "the id", .mk "string" "" [] none "" [] ""⟩

/-- An operation with summary, description, parameters, responses and tags
all declared, for the frame-claim witness. -/
def c10Op : Operation :=
  ⟨"", "getUser", "Get a user", "Returns one user", [c10Param], none,
    [("200", ⟨"OK", []⟩)], ["users"]⟩

/-- Specification with one parameterized path, a populated info section and
one component schema, for the frame-claim witness. -/
def c10Spec : OpenAPISpec :=
  ⟨⟨"Users API", "1.0.0", "demo"⟩,
    [("/users/\x7bid\x7d", [("get", c10Op)])],
    ⟨[("User", .mk "object" "" [("id", .mk "string" "" [] none "" [] "")] none "" [] "")]⟩⟩

/-- Operation used under path `/a` of the iteration-order specifications. -/
def c2OpA : Operation :=
  ⟨"", "a", "", "", [], none, [], []⟩

/-- Operation used under path `/b` of the iteration-order specifications. -/
def c2OpB : Operation :=
  ⟨"", "b", "", "", [], none, [], []⟩

/-- The two-path specification with iteration order `/a`, `/b`. -/
def c2SpecFirst : OpenAPISpec :=
  ⟨⟨"", "", ""⟩, [("/a", [("get", c2OpA)]), ("/b", [("get", c2OpB)])], ⟨[]⟩⟩

/-- The same two-path specification with iteration order `/b`, `/a`. -/
def c2SpecSecond : OpenAPISpec :=
  ⟨⟨"", "", ""⟩, [("/b", [("get", c2OpB)]), ("/a", [("get", c2OpA)])], ⟨[]⟩⟩

/-- A trivial specification (no paths, no schemas) for the emitter
counterexample. -/
def c1Spec : OpenAPISpec :=
  ⟨⟨"", "", ""⟩, [], ⟨[]⟩⟩

/-- Generator configuration with an explicit module name. -/
def c1Config : Config :=
  ⟨"generated", "testapi", "newmodule"⟩

/-- An output directory that already holds a user-edited `go.mod`. -/
def c1FS : FileSystem :=
  [("go.mod", "module existing/module\n\ngo 1.21")]

/-- An output directory that already holds a user-edited `main.go` and
`api/implementation.go`. -/
def c1FSKept : FileSystem :=
  [("main.go", "// Custom main.go content"),
    ("api/implementation.go", "// Custom implementation content")]

/-! ## Helper lemmas -/

theorem assocFind_map {α β : Type} (f : String → α → β) (l : List (String × α)) (k : String) :
    assocFind (l.map (fun e => (e.1, f e.1 e.2))) k = (assocFind l k).map (f k) := by
  induction l with
  | nil => rfl
  | cons e rest ih =>
    by_cases h : e.1 = k
    · simp [assocFind, h]
    · simp [assocFind, h, ih]

theorem assocFind_processPaths (paths : List (String × List (String × Operation))) (p : String) :
    assocFind
        (paths.map (fun pm => (pm.1, pm.2.map (fun mo => (mo.1, processOperation pm.1 mo.1 mo.2))))) p
      = (assocFind paths p).map (fun ms => ms.map (fun mo => (mo.1, processOperation p mo.1 mo.2))) := by
  induction paths with
  | nil => rfl
  | cons e rest ih =>
    by_cases h : e.1 = p
    · subst h
      simp [assocFind]
    · simp [assocFind, h, ih]

theorem assocFind_processMethods (p m : String) (ms : List (String × Operation)) :
    assocFind (ms.map (fun mo => (mo.1, processOperation p mo.1 mo.2))) m
      = (assocFind ms m).map (processOperation p m) := by
  induction ms with
  | nil => rfl
  | cons e rest ih =>
    by_cases h : e.1 = m
    · subst h
      simp [assocFind]
    · simp [assocFind, h, ih]

theorem lookupOperation_processSpec (s : OpenAPISpec) (p m : String) :
    lookupOperation (processSpec s) p m
      = (lookupOperation s p m).map (processOperation p m) := by
  unfold lookupOperation
  have hp : (processSpec s).paths
      = s.paths.map (fun pm => (pm.1, pm.2.map (fun mo => (mo.1, processOperation pm.1 mo.1 mo.2)))) := rfl
  rw [hp, assocFind_processPaths]
  cases assocFind s.paths p with
  | none => rfl
  | some ms => simp [assocFind_processMethods]

theorem processOperation_idem (p m : String) (op : Operation) :
    processOperation p m (processOperation p m op) = processOperation p m op := by
  unfold processOperation
  by_cases ht : op.tags.length = 0 <;> by_cases ho : op.operationID = "" <;> simp [ht, ho]

theorem goIsSeparator_alnum {c : Char} (h : c.isAlphanum = true) : goIsSeparator c = false := by
  have h' : (c.isUpper || c.isLower || c.isDigit) = true := h
  have h2 : (c.isUpper = true ∨ c.isLower = true) ∨ c.isDigit = true := by
    simpa using h'
  unfold goIsSeparator
  rcases h2 with (h1 | h1) | h1 <;> simp [h1]

theorem goTitleAux_of_alnum :
    ∀ (l : List Char) (prev : Char), goIsSeparator prev = false →
      (∀ c ∈ l, c.isAlphanum = true) → goTitleAux prev l = l := by
  intro l
  induction l with
  | nil => intro prev _ _; rfl
  | cons c cs ih =>
    intro prev hprev hall
    have hc : c.isAlphanum = true := hall c (by simp)
    unfold goTitleAux
    rw [if_neg (by simp [hprev])]
    rw [ih c (goIsSeparator_alnum hc) (fun d hd => hall d (by simp [hd]))]

theorem goTitleL_alnum (l : List Char) (h : ∀ c ∈ l, c.isAlphanum = true) :
    goTitleL l = capitalizeFirstOnly l := by
  cases l with
  | nil => rfl
  | cons c cs =>
    unfold goTitleL goTitleAux capitalizeFirstOnly
    rw [if_pos (show goIsSeparator ' ' = true from rfl)]
    rw [goTitleAux_of_alnum cs c (goIsSeparator_alnum (h c (by simp)))
      (fun d hd => h d (by simp [hd]))]

theorem replaceAllL_chars (l : List Char)
    (h : ∀ c ∈ l, c.isAlphanum = true ∨ c = '_' ∨ c = '-') :
    ∀ c ∈ replaceAllL '-' ['_'] l, c.isAlphanum = true ∨ c = '_' := by
  induction l with
  | nil => simp [replaceAllL]
  | cons c cs ih =>
    intro d hd
    unfold replaceAllL at hd
    by_cases hc : c = '-'
    · simp [hc] at hd
      rcases hd with hd | hd
      · right; exact hd
      · exact ih (fun e he => h e (by simp [he])) d hd
    · simp [hc] at hd
      rcases hd with hd | hd
      · subst hd
        rcases h d (by simp) with h1 | h1 | h1
        · left; exact h1
        · right; exact h1
        · exact absurd h1 hc
      · exact ih (fun e he => h e (by simp [he])) d hd

theorem splitOnCharL_ne_nil (sep : Char) (l : List Char) : splitOnCharL sep l ≠ [] := by
  cases l with
  | nil => simp [splitOnCharL]
  | cons c cs =>
    unfold splitOnCharL
    by_cases h : c = sep
    · simp [h]
    · simp only [h, if_false]
      cases hs : splitOnCharL sep cs <;> simp

theorem splitOnCharL_segments (sep : Char) (l : List Char)
    (h : ∀ c ∈ l, c.isAlphanum = true ∨ c = sep) :
    ∀ seg ∈ splitOnCharL sep l, ∀ c ∈ seg, c.isAlphanum = true := by
  induction l with
  | nil =>
    intro seg hseg
    simp [splitOnCharL] at hseg
    simp [hseg]
  | cons c cs ih =>
    intro seg hseg
    unfold splitOnCharL at hseg
    by_cases hc : c = sep
    · simp [hc] at hseg
      rcases hseg with hseg | hseg
      · simp [hseg]
      · exact ih (fun e he => h e (by simp [he])) seg hseg
    · simp only [hc, if_false] at hseg
      cases hs : splitOnCharL sep cs with
      | nil => exact absurd hs (splitOnCharL_ne_nil sep cs)
      | cons s t =>
        rw [hs] at hseg
        simp at hseg
        have hcal : c.isAlphanum = true := by
          rcases h c (by simp) with h1 | h1
          · exact h1
          · exact absurd h1 hc
        rcases hseg with hseg | hseg
        · subst hseg
          intro d hd
          simp at hd
          rcases hd with hd | hd
          · subst hd; exact hcal
          · have hm := ih (fun e he => h e (by simp [he])) s (by simp [hs])
            exact hm d hd
        · exact ih (fun e he => h e (by simp [he])) seg (by simp [hs, hseg])

theorem replaceAllL_append (old : Char) (rep : List Char) (l1 l2 : List Char) :
    replaceAllL old rep (l1 ++ l2) = replaceAllL old rep l1 ++ replaceAllL old rep l2 := by
  induction l1 with
  | nil => rfl
  | cons c cs ih => simp [replaceAllL, ih, List.append_assoc]

theorem replaceAllL_of_not_mem (old : Char) (rep : List Char) (l : List Char) (h : old ∉ l) :
    replaceAllL old rep l = l := by
  induction l with
  | nil => rfl
  | cons c cs ih =>
    have hc : c ≠ old := fun he => h (by simp [he])
    simp [replaceAllL, hc, ih (fun he => h (by simp [he]))]

theorem braceFree_not_mem {s : String} (h : braceFree s = true) :
    '\x7b' ∉ s.data ∧ '\x7d' ∉ s.data := by
  unfold braceFree at h
  constructor <;> intro hm <;>
    have := List.all_eq_true.mp h _ hm <;> simp_all

theorem convert_template_core : ∀ ps : List PathPiece, wfTemplate ps = true →
    replaceAllL '\x7d' [] (replaceAllL '\x7b' [':'] (renderOpenAPIL ps)) = renderGinL ps := by
  intro ps
  induction ps with
  | nil => intro _; rfl
  | cons piece rest ih =>
    intro hwf
    cases piece with
    | lit s =>
      have hs : braceFree s = true ∧ wfTemplate rest = true := by
        simpa [wfTemplate] using hwf
      obtain ⟨hnb1, hnb2⟩ := braceFree_not_mem hs.1
      show replaceAllL '\x7d' [] (replaceAllL '\x7b' [':'] (s.data ++ renderOpenAPIL rest)) = _
      rw [replaceAllL_append, replaceAllL_of_not_mem _ _ _ hnb1,
        replaceAllL_append, replaceAllL_of_not_mem _ _ _ hnb2, ih hs.2]
      rfl
    | param n =>
      have hs : braceFree n = true ∧ wfTemplate rest = true := by
        simpa [wfTemplate] using hwf
      obtain ⟨hnb1, hnb2⟩ := braceFree_not_mem hs.1
      show replaceAllL '\x7d' []
          (replaceAllL '\x7b' [':'] ('\x7b' :: (n.data ++ ('\x7d' :: renderOpenAPIL rest)))) = _
      rw [show replaceAllL '\x7b' [':'] ('\x7b' :: (n.data ++ ('\x7d' :: renderOpenAPIL rest)))
          = ':' :: replaceAllL '\x7b' [':'] (n.data ++ ('\x7d' :: renderOpenAPIL rest)) by
        simp [replaceAllL]]
      rw [replaceAllL_append, replaceAllL_of_not_mem _ _ _ hnb1]
      rw [show replaceAllL '\x7b' [':'] ('\x7d' :: renderOpenAPIL rest)
          = '\x7d' :: replaceAllL '\x7b' [':'] (renderOpenAPIL rest) by
        simp [replaceAllL]]
      show replaceAllL '\x7d' []
          (':' :: (n.data ++ ('\x7d' :: replaceAllL '\x7b' [':'] (renderOpenAPIL rest)))) = _
      rw [show replaceAllL '\x7d' []
            (':' :: (n.data ++ ('\x7d' :: replaceAllL '\x7b' [':'] (renderOpenAPIL rest))))
          = ':' :: replaceAllL '\x7d' [] (n.data ++ ('\x7d' :: replaceAllL '\x7b' [':'] (renderOpenAPIL rest))) by
        simp [replaceAllL]]
      rw [replaceAllL_append, replaceAllL_of_not_mem _ _ _ hnb2]
      rw [show replaceAllL '\x7d' [] ('\x7d' :: replaceAllL '\x7b' [':'] (renderOpenAPIL rest))
          = replaceAllL '\x7d' [] (replaceAllL '\x7b' [':'] (renderOpenAPIL rest)) by
        simp [replaceAllL]]
      rw [ih hs.2]
      rfl

/-! ## Claims -/

theorem getGoType_eq_specGoType : ∀ s : Schema, getGoType s = specGoType s
  | .mk ty fmt props items ref req desc => by
    unfold getGoType specGoType
    split
    · rfl
    · cases items with
      | none => split <;> split <;> simp_all
      | some it =>
        have ih := getGoType_eq_specGoType it
        split <;> split <;> simp_all

/-- C5: `GetGoType` equals the documented resolution function on every
schema — reference first (final `/`-segment, any depth, no existence check),
then the string/integer/number/boolean/array/object rows of the matrix, with
recursive array resolution and the dynamic-type fallback; it never fails,
and the deep path-like reference `#/components/schemas/api/v2/user/Profile`
resolves to the bare name `Profile`. -/
theorem getGoType_matches_documented_table :
    (∀ s : Schema, getGoType s = specGoType s)
      ∧ getGoType (.mk "" "" [] none "#/components/schemas/api/v2/user/Profile" [] "")
          = "Profile" :=
  ⟨getGoType_eq_specGoType, rfl⟩

/-- C6: the normalization pass is idempotent — running `ProcessSpec` twice
equals running it once; identifiers, tag sets and method tokens populated by
the first pass are left untouched by the second. -/
theorem processSpec_idempotent (s : OpenAPISpec) :
    processSpec (processSpec s) = processSpec s := by
  unfold processSpec
  simp only [List.map_map]
  congr 1
  apply List.map_congr_left
  intro pm _
  simp only [Function.comp]
  congr 1
  simp only [List.map_map]
  apply List.map_congr_left
  intro mo _
  simp only [Function.comp]
  rw [processOperation_idem]

/-- C8: the type resolver terminates on every finite schema — the recursion
descends only through the `Items` chain, so with any fuel exceeding the
`Items`-nesting depth the explicitly fuelled resolver returns the total
resolver's answer rather than running out. -/
theorem getGoType_terminates_within_items_depth :
    ∀ (s : Schema) (n : Nat), itemsDepth s < n → getGoTypeFuel n s = some (getGoType s) := by
  intro s n
  induction n generalizing s with
  | zero => intro h; omega
  | succ n ih =>
    intro h
    match s with
    | .mk ty fmt props items ref req desc =>
      unfold getGoTypeFuel getGoType
      split
      · rfl
      · cases items with
        | none => split <;> (try split) <;> simp_all
        | some it =>
          have hd : itemsDepth it < n := by
            have he : itemsDepth (Schema.mk ty fmt props (some it) ref req desc)
                = itemsDepth it + 1 := rfl
            omega
          have hit := ih it hd
          split <;> (try split) <;> simp_all

/-- Witness for C8 at the array-of-array-of-reference schema of depth two. -/
theorem getGoType_terminates_witness :
    itemsDepth c8Schema < 3
      ∧ getGoTypeFuel 3 c8Schema = some (getGoType c8Schema)
      ∧ getGoType c8Schema = "[][]User" :=
  ⟨by decide, getGoType_terminates_within_items_depth c8Schema 3 (by decide), rfl⟩

/-- C9: `ConvertPathToGin` rewrites every `\x7bname\x7d` placeholder of a
well-formed URL template to `:name` (regardless of any declared parameters),
and returns any path containing no brace characters unchanged. -/
theorem convertPathToGin_rewrites_placeholders :
    (∀ ps : List PathPiece, wfTemplate ps = true →
        convertPathToGin ⟨renderOpenAPIL ps⟩ = ⟨renderGinL ps⟩)
      ∧ (∀ s : String, braceFree s = true → convertPathToGin s = s) := by
  constructor
  · intro ps hwf
    show String.mk (replaceAllL '\x7d' [] (replaceAllL '\x7b' [':'] (renderOpenAPIL ps))) = _
    rw [convert_template_core ps hwf]
  · intro s hb
    obtain ⟨h1, h2⟩ := braceFree_not_mem hb
    show String.mk (replaceAllL '\x7d' [] (replaceAllL '\x7b' [':'] s.data)) = s
    rw [replaceAllL_of_not_mem _ _ _ h1, replaceAllL_of_not_mem _ _ _ h2]

/-- Witness for C9 at `/users/\x7buserId\x7d/posts/\x7bpostId\x7d` and at the
placeholder-free path `/`. -/
theorem convertPathToGin_witness :
    wfTemplate c9Pieces = true
      ∧ convertPathToGin "/users/\x7buserId\x7d/posts/\x7bpostId\x7d"
          = "/users/:userId/posts/:postId"
      ∧ braceFree "/" = true
      ∧ convertPathToGin "/" = "/" := by
  refine ⟨rfl, ?_, rfl, convertPathToGin_rewrites_placeholders.2 "/" rfl⟩
  exact convertPathToGin_rewrites_placeholders.1 c9Pieces rfl

/-- C7: `ParseSpecFile` chooses the deserializer strictly by the lower-cased
file extension — `.yaml`/`.yml` to YAML, `.json` to JSON — and any other
extension yields the unsupported-format error immediately, carrying no file
contents to any parser; files whose paths share an extension are dispatched
identically. -/
theorem parseSpecFile_extension_dispatch (filePath data : String) :
    (goToLower (goFilepathExt filePath) = ".yaml" ∨ goToLower (goFilepathExt filePath) = ".yml" →
        parseSpecFileDispatch filePath data = .yaml data)
      ∧ (goToLower (goFilepathExt filePath) = ".json" →
          parseSpecFileDispatch filePath data = .json data)
      ∧ (goToLower (goFilepathExt filePath) ≠ ".yaml" →
          goToLower (goFilepathExt filePath) ≠ ".yml" →
          goToLower (goFilepathExt filePath) ≠ ".json" →
          parseSpecFileDispatch filePath data
            = .unsupported ("unsupported file format: " ++ goToLower (goFilepathExt filePath)))
      ∧ (∀ other : String, goFilepathExt filePath = goFilepathExt other →
          parseSpecFileDispatch filePath data = parseSpecFileDispatch other data) := by
  refine ⟨?_, ?_, ?_, ?_⟩
  · intro h
    unfold parseSpecFileDispatch
    rw [if_pos h]
  · intro h
    unfold parseSpecFileDispatch
    rcases eq_or_ne (goToLower (goFilepathExt filePath)) ".yaml" with hy | hy
    · rw [h] at hy; exact absurd hy (by decide)
    · rcases eq_or_ne (goToLower (goFilepathExt filePath)) ".yml" with hy2 | hy2
      · rw [h] at hy2; exact absurd hy2 (by decide)
      · rw [if_neg (by tauto), if_pos h]
  · intro h1 h2 h3
    unfold parseSpecFileDispatch
    rw [if_neg (by tauto), if_neg h3]
  · intro other h
    unfold parseSpecFileDispatch
    rw [h]

/-- Witness for C7 at an upper-cased YAML extension, a JSON file and an
unsupported `.txt` file. -/
theorem parseSpecFile_extension_dispatch_witness :
    goToLower (goFilepathExt "openapi.YAML") = ".yaml"
      ∧ parseSpecFileDispatch "openapi.YAML" "d" = .yaml "d"
      ∧ goToLower (goFilepathExt "spec.json") = ".json"
      ∧ parseSpecFileDispatch "spec.json" "d" = .json "d"
      ∧ goToLower (goFilepathExt "spec.txt") ≠ ".yaml"
      ∧ parseSpecFileDispatch "spec.txt" "d"
          = .unsupported ("unsupported file format: " ++ goToLower (goFilepathExt "spec.txt")) :=
  ⟨rfl, (parseSpecFile_extension_dispatch "openapi.YAML" "d").1 (Or.inl rfl),
    rfl, (parseSpecFile_extension_dispatch "spec.json" "d").2.1 rfl,
    by decide, (parseSpecFile_extension_dispatch "spec.txt" "d").2.2.1
      (by decide) (by decide) (by decide)⟩

/-- C3: after one `ProcessSpec` pass, the operation stored under path `p`
and method `m` has its method token upper-cased; exactly the default tag
when none were declared and the declared tags otherwise; a declared non-empty
operation identifier untouched, and otherwise the identifier synthesized as
the lower-cased method followed by the camel-cased last segment of the path
trimmed of leading and trailing slashes (`"root"` standing in when the
trimmed path splits into no segments). -/
theorem processSpec_operation_postcondition (s : OpenAPISpec) (p m : String) (op op' : Operation)
    (h1 : lookupOperation s p m = some op)
    (h2 : lookupOperation (processSpec s) p m = some op') :
    op'.method = goToUpper m
      ∧ (op.tags = [] → op'.tags = ["default"])
      ∧ (op.tags ≠ [] → op'.tags = op.tags)
      ∧ (op.operationID ≠ "" → op'.operationID = op.operationID)
      ∧ (op.operationID = "" →
          op'.operationID
            = goToLower m
                ++ parserToCamelCase
                  (match (splitOnCharL '/' (trimCharL '/' p.data)).getLast? with
                   | some seg => (⟨seg⟩ : String)
                   | none => "root")) := by
  rw [lookupOperation_processSpec, h1] at h2
  have hop : op' = processOperation p m op := by
    simpa using h2.symm
  subst hop
  unfold processOperation
  by_cases ht : op.tags.length = 0 <;> by_cases ho : op.operationID = "" <;>
    simp [ht, ho]
  · intro h
    simp_all [List.length_eq_zero]
  · intro h
    simp_all [List.length_eq_zero]
  · intro h
    simp_all [List.length_eq_zero]
  · intro h
    simp_all [List.length_eq_zero]

/-- Witness for C3: `GET /users` synthesizes `getUsers` with tag `default`
and method `GET`, `DELETE /complex/path/with/segments` synthesizes
`deleteSegments`, and `GET` on bare `/` synthesizes `get`. -/
theorem processSpec_operation_postcondition_witness :
    lookupOperation c3Spec "/users" "get" = some emptyOperation
      ∧ lookupOperation (processSpec c3Spec) "/users" "get"
          = some (processOperation "/users" "get" emptyOperation)
      ∧ (processOperation "/users" "get" emptyOperation).method = "GET"
      ∧ (processOperation "/users" "get" emptyOperation).tags = ["default"]
      ∧ (processOperation "/users" "get" emptyOperation).operationID = "getUsers"
      ∧ lookupOperation (processSpec c3Spec) "/complex/path/with/segments" "delete"
          = some (processOperation "/complex/path/with/segments" "delete" emptyOperation)
      ∧ (processOperation "/complex/path/with/segments" "delete" emptyOperation).operationID
          = "deleteSegments"
      ∧ lookupOperation (processSpec c3Spec) "/" "get"
          = some (processOperation "/" "get" emptyOperation)
      ∧ (processOperation "/" "get" emptyOperation).operationID = "get" := by
  refine ⟨rfl, rfl, ?_, ?_, ?_, rfl, ?_, rfl, ?_⟩
  · exact (processSpec_operation_postcondition c3Spec "/users" "get" emptyOperation
      (processOperation "/users" "get" emptyOperation) rfl rfl).1
  · exact (processSpec_operation_postcondition c3Spec "/users" "get" emptyOperation
      (processOperation "/users" "get" emptyOperation) rfl rfl).2.1 rfl
  · exact (processSpec_operation_postcondition c3Spec "/users" "get" emptyOperation
      (processOperation "/users" "get" emptyOperation) rfl rfl).2.2.2.2 rfl
  · exact (processSpec_operation_postcondition c3Spec "/complex/path/with/segments" "delete"
      emptyOperation (processOperation "/complex/path/with/segments" "delete" emptyOperation)
      rfl rfl).2.2.2.2 rfl
  · exact (processSpec_operation_postcondition c3Spec "/" "get" emptyOperation
      (processOperation "/" "get" emptyOperation) rfl rfl).2.2.2.2 rfl

/-- C10: `ProcessSpec` changes only the method, tags and operation-identifier
fields — the info section, the component schemas, the path-key list, the
method keys under every path, and every operation's summary, description,
parameters, request body and responses are exactly as before the pass. -/
theorem processSpec_structural_frame (s : OpenAPISpec) :
    (processSpec s).info = s.info
      ∧ (processSpec s).components = s.components
      ∧ (processSpec s).paths.map Prod.fst = s.paths.map Prod.fst
      ∧ (∀ p, ((assocFind (processSpec s).paths p).map (fun ms => ms.map Prod.fst))
            = (assocFind s.paths p).map (fun ms => ms.map Prod.fst))
      ∧ (∀ p m op op', lookupOperation s p m = some op →
          lookupOperation (processSpec s) p m = some op' →
            op'.summary = op.summary ∧ op'.description = op.description
              ∧ op'.parameters = op.parameters ∧ op'.requestBody = op.requestBody
              ∧ op'.responses = op.responses) := by
  refine ⟨rfl, rfl, ?_, ?_, ?_⟩
  · show (s.paths.map (fun pm =>
        (pm.1, pm.2.map (fun mo => (mo.1, processOperation pm.1 mo.1 mo.2))))).map Prod.fst = _
    simp [List.map_map, Function.comp]
  · intro p
    have hp : (processSpec s).paths
        = s.paths.map (fun pm =>
            (pm.1, pm.2.map (fun mo => (mo.1, processOperation pm.1 mo.1 mo.2)))) := rfl
    rw [hp, assocFind_processPaths]
    cases assocFind s.paths p with
    | none => rfl
    | some ms => simp [List.map_map, Function.comp]
  · intro p m op op' h1 h2
    rw [lookupOperation_processSpec, h1] at h2
    have hop : op' = processOperation p m op := by simpa using h2.symm
    subst hop
    unfold processOperation
    by_cases ht : op.tags.length = 0 <;> by_cases ho : op.operationID = "" <;> simp [ht, ho]

/-- Witness for C10 at a specification with a populated info section, a
parameterized path, declared responses and a component schema. -/
theorem processSpec_structural_frame_witness :
    (processSpec c10Spec).info = c10Spec.info
      ∧ (processSpec c10Spec).components = c10Spec.components
      ∧ (processSpec c10Spec).paths.map Prod.fst = c10Spec.paths.map Prod.fst
      ∧ ((assocFind (processSpec c10Spec).paths "/users/\x7bid\x7d").map (fun ms => ms.map Prod.fst))
          = (assocFind c10Spec.paths "/users/\x7bid\x7d").map (fun ms => ms.map Prod.fst)
      ∧ lookupOperation c10Spec "/users/\x7bid\x7d" "get" = some c10Op
      ∧ ((processOperation "/users/\x7bid\x7d" "get" c10Op).summary = c10Op.summary
          ∧ (processOperation "/users/\x7bid\x7d" "get" c10Op).description = c10Op.description
          ∧ (processOperation "/users/\x7bid\x7d" "get" c10Op).parameters = c10Op.parameters
          ∧ (processOperation "/users/\x7bid\x7d" "get" c10Op).requestBody = c10Op.requestBody
          ∧ (processOperation "/users/\x7bid\x7d" "get" c10Op).responses = c10Op.responses) := by
  have h := processSpec_structural_frame c10Spec
  exact ⟨h.1, h.2.1, h.2.2.1, h.2.2.2.1 _, rfl,
    h.2.2.2.2 "/users/\x7bid\x7d" "get" c10Op
      (processOperation "/users/\x7bid\x7d" "get" c10Op) rfl rfl⟩

/-- C4 counterexample: `utils.ToCamelCase` does not preserve the interior
casing of a mixed-case segment — it maps `userId` to `Userid`, losing the
interior capital — and even `parser.ToCamelCase` title-cases a letter that
follows punctuation inside a segment (`a.b` becomes `A.B`). -/
theorem toCamelCase_interior_casing_counterexample :
    utilsToCamelCase "userId" = "Userid"
      ∧ "Userid" ≠ "UserId"
      ∧ parserToCamelCase "userId" = "UserId"
      ∧ parserToCamelCase "a.b" = "A.B"
      ∧ "A.B" ≠ "A.b" :=
  ⟨rfl, by decide, rfl, rfl, by decide⟩

/-- C4 (amended): for `parser.ToCamelCase` on tokens made of letters, digits,
`-` and `_`, only the first letter of each separator-delimited segment is
upper-cased and the interior casing of the rest of the segment is
preserved. -/
theorem parserToCamelCase_segment_casing (s : String)
    (h : s.data.all (fun c => c.isAlphanum || c == '-' || c == '_') = true) :
    parserToCamelCase s
      = ⟨(List.map capitalizeFirstOnly (splitOnCharL '_' (replaceAllL '-' ['_'] s.data))).flatten⟩ := by
  unfold parserToCamelCase
  congr 1
  congr 1
  apply List.map_congr_left
  intro seg hseg
  apply goTitleL_alnum
  have hl : ∀ c ∈ s.data, c.isAlphanum = true ∨ c = '_' ∨ c = '-' := by
    intro c hc
    have hb := List.all_eq_true.mp h c hc
    simp at hb
    tauto
  have hrep := replaceAllL_chars s.data hl
  exact splitOnCharL_segments '_' _ hrep seg hseg

/-- Witness for C4 (amended) at the mixed-case token `userId`: the interior
capital survives. -/
theorem parserToCamelCase_segment_casing_witness :
    ("userId".data.all (fun c => c.isAlphanum || c == '-' || c == '_')) = true
      ∧ parserToCamelCase "userId" = "UserId" := by
  refine ⟨rfl, ?_⟩
  exact parserToCamelCase_segment_casing "userId" rfl

/-- C1 (amended): in the `GenerateCode` pipeline the entry point `main.go`
and the handler-implementation stub `api/implementation.go` are create-once
(an existing file's content is returned unchanged by the run, and an absent
one is written with the freshly rendered content), while the module
descriptor `go.mod` is rewritten with the rendered content on every run. -/
theorem generateCode_create_once_amended (spec : OpenAPISpec) (config : Config) (fs : FileSystem) :
    fsLookup (generateCode spec config fs) "go.mod"
        = some (goModContent (if config.moduleName = "" then config.packageName else config.moduleName))
      ∧ (∀ c, fsLookup fs "main.go" = some c →
          fsLookup (generateCode spec config fs) "main.go" = some c)
      ∧ (fsLookup fs "main.go" = none →
          fsLookup (generateCode spec config fs) "main.go"
            = some (renderMainFile spec
                (if config.moduleName = "" then config.packageName else config.moduleName)))
      ∧ (∀ c, fsLookup fs "api/implementation.go" = some c →
          fsLookup (generateCode spec config fs) "api/implementation.go" = some c)
      ∧ (fsLookup fs "api/implementation.go" = none →
          fsLookup (generateCode spec config fs) "api/implementation.go"
            = some (renderImplementation spec
                (if config.moduleName = "" then config.packageName else config.moduleName))) := by
  cases hmain : fsLookup fs "main.go" <;> cases himpl : fsLookup fs "api/implementation.go" <;>
    refine ⟨?_, ?_, ?_, ?_, ?_⟩ <;>
    simp [generateCode, fsWrite, fsLookup, hmain, himpl]

/-- Witness for C1 (amended): pre-existing `main.go` and
`api/implementation.go` contents survive a run untouched, and an absent
`main.go` is written with the rendered entry point. -/
theorem generateCode_create_once_amended_witness :
    fsLookup c1FSKept "main.go" = some "// Custom main.go content"
      ∧ fsLookup c1FSKept "api/implementation.go" = some "// Custom implementation content"
      ∧ fsLookup (generateCode c1Spec c1Config c1FSKept) "main.go"
          = some "// Custom main.go content"
      ∧ fsLookup (generateCode c1Spec c1Config c1FSKept) "api/implementation.go"
          = some "// Custom implementation content"
      ∧ fsLookup c1FS "main.go" = none
      ∧ fsLookup (generateCode c1Spec c1Config c1FS) "main.go"
          = some (renderMainFile c1Spec
              (if c1Config.moduleName = "" then c1Config.packageName else c1Config.moduleName)) := by
  refine ⟨rfl, rfl, ?_, ?_, rfl, ?_⟩
  · exact (generateCode_create_once_amended c1Spec c1Config c1FSKept).2.1 _ rfl
  · exact (generateCode_create_once_amended c1Spec c1Config c1FSKept).2.2.2.1 _ rfl
  · exact (generateCode_create_once_amended c1Spec c1Config c1FS).2.2.1 rfl

/-- C1 counterexample: a `go.mod` already present in the output directory is
not left untouched — after `GenerateCode` its content is the freshly
rendered module descriptor, not the pre-existing content. -/
theorem generateCode_gomod_overwritten :
    fsLookup c1FS "go.mod" = some "module existing/module\n\ngo 1.21"
      ∧ fsLookup (generateCode c1Spec c1Config c1FS) "go.mod" = some (goModContent "newmodule")
      ∧ goModContent "newmodule" ≠ "module existing/module\n\ngo 1.21" :=
  ⟨rfl, rfl, by decide⟩

/-- C2: the rendered `api/api.go` content is not a function of the
specification alone — two specifications holding the same path and method
maps (a permutation of each other, with identical lookups) render different
bytes, because the handler list follows the iteration order of the embedded
`Paths` map. -/
theorem renderAPIFile_iteration_order_dependent :
    c2SpecFirst.info = c2SpecSecond.info
      ∧ c2SpecFirst.components = c2SpecSecond.components
      ∧ c2SpecFirst.paths.Perm c2SpecSecond.paths
      ∧ assocFind c2SpecFirst.paths "/a" = some [("get", c2OpA)]
      ∧ assocFind c2SpecSecond.paths "/a" = some [("get", c2OpA)]
      ∧ assocFind c2SpecFirst.paths "/b" = some [("get", c2OpB)]
      ∧ assocFind c2SpecSecond.paths "/b" = some [("get", c2OpB)]
      ∧ renderAPIFile c2SpecFirst ≠ renderAPIFile c2SpecSecond := by
  refine ⟨rfl, rfl, ?_, rfl, rfl, rfl, rfl, by decide⟩
  exact List.Perm.swap _ _ _
